import Mathlib

/-!
# Verification of `bytecacher` (disk-backed memoization cache)

Shallow embedding of `src/bytecacher.go`. The filesystem, the clock and the
environmental failure modes (unexpected stat errors, read failures, write
failures) are made explicit in a `World` state; the caller-supplied lookup
("source") function lives in the `Cacher` structure, mirroring the Go struct.
A counter `World.calls` counts invocations of the source function: it is
incremented exactly where the Go code calls `c.lookup(key)` (inside `store`),
so "the source was not invoked" is expressed as "`calls` is unchanged".

Machine bytes are modelled as `Nat`; timestamps and durations as `Int`
(Go's `time.Time` / `time.Duration` arithmetic never overflows in the cases
considered, and `time.Since(mtime) = now - mtime` may be negative).
-/

namespace Bytecacher

/-- A file as the cache sees it: directory flag, raw byte payload, and the
filesystem-reported last-modified timestamp. -/
structure File where
  isDir : Bool
  data : List Nat
  mtime : Int
  deriving DecidableEq, Repr

/-- The environment state: the filesystem (a map from path strings to files),
per-path environmental failure flags (an `os.Stat` error other than
not-found, an `ioutil.ReadFile` failure, an `ioutil.WriteFile` failure),
the current time, and a counter of source-function invocations. -/
structure World where
  files : String → Option File
  statErr : String → Bool
  readErr : String → Bool
  writeErr : String → Bool
  now : Int
  calls : Nat

/-- The `Cacher` struct of the Go code: the caller-supplied lookup (source)
function and the root directory path.  The debug flag and the lock registry
are elided here; the lock registry is modelled separately below for the
concurrency claim. -/
structure Cacher where
  lookup : String → Except String (List Nat)
  path : String

/-- `filePath` of the Go code: `c.path + "/" + key`. -/
def filePath (c : Cacher) (key : String) : String :=
  c.path ++ "/" ++ key

/-- Outcome of `os.Stat` on a path: not found, success (directory flag and
modification time), or any other error. -/
inductive StatResult where
  | notFound
  | found (isDir : Bool) (mtime : Int)
  | otherErr
  deriving DecidableEq, Repr

/-- What `os.Stat` returns in a given world at a given path. -/
def statOf (w : World) (p : String) : StatResult :=
  if w.statErr p then .otherErr
  else match w.files p with
    | none => .notFound
    | some f => .found f.isDir f.mtime

/-- Result of the Go `fileExists` helper: either a `(bool, time.Time)` pair,
or `fatal` for the `log.Fatalf` branch (which terminates the process). -/
inductive ExistsResult where
  | res (ex : Bool) (mtime : Int)
  | fatal
  deriving DecidableEq, Repr

/-- `fileExists` of the Go code, branch for branch: a not-found stat yields
`(false, zero time)`; a successful stat yields `(false, zero time)` for a
directory and `(true, mtime)` for a regular file; any other stat error hits
`log.Fatalf` (modelled as `fatal`). -/
def fileExists (st : StatResult) : ExistsResult :=
  match st with
  | .notFound => .res false 0
  | .found isDir mtime => if isDir then .res false 0 else .res true mtime
  | .otherErr => .fatal

/-- The two error producers inside `retrieve`: the `fmt.Errorf("not stored")`
branch and a `ReadFile` failure. -/
inductive RetrieveErr where
  | notStored
  | readFail
  deriving DecidableEq, Repr

/-- Result of `retrieve`: process termination via `fileExists`, an error
(`([]byte{}, time.Time{}, err)` in Go), or the payload with its mtime. -/
inductive RetrieveResult where
  | fatal
  | err (e : RetrieveErr)
  | ok (data : List Nat) (mtime : Int)
  deriving DecidableEq, Repr

/-- `retrieve` of the Go code: stat the key's path via `fileExists`; if it
does not exist, fail with "not stored"; otherwise read the file, which may
itself fail.  Holding the shared lock performs no writes, so `retrieve`
returns no new world. -/
def retrieve (c : Cacher) (w : World) (key : String) : RetrieveResult :=
  let p := filePath c key
  match fileExists (statOf w p) with
  | .fatal => .fatal
  | .res false _ => .err .notStored
  | .res true mtime =>
    if w.readErr p then .err .readFail
    else match w.files p with
      | none => .err .readFail
      | some f => .ok f.data mtime

/-- Errors surfaced to the caller by the store path: the source function's
own failure (carrying its message) or a storage write failure. -/
inductive SErr where
  | sourceFail (msg : String)
  | writeFail
  deriving DecidableEq, Repr

/-- The `([]byte, error)` pair returned by `store` (both components can be
meaningful at once, as in Go). -/
structure StoreResult where
  data : List Nat
  error : Option SErr
  deriving DecidableEq, Repr

/-- `store` of the Go code: take the exclusive lock, invoke the source
function unconditionally (the call counter increments), on failure return
`([]byte{}, err)` with storage untouched; on success write the payload to
the key's path (a full replacement, with the file's mtime set to now) and
return the fresh bytes together with the write error, if any. -/
def store (c : Cacher) (w : World) (key : String) : StoreResult × World :=
  let w1 : World := { w with calls := w.calls + 1 }
  match c.lookup key with
  | .error e => (⟨[], some (.sourceFail e)⟩, w1)
  | .ok ans =>
    let p := filePath c key
    if w.writeErr p then (⟨ans, some .writeFail⟩, w1)
    else (⟨ans, none⟩,
      { w1 with files := fun q => if q = p then some ⟨false, ans, w.now⟩ else w.files q })

/-- The `([]byte, error)` outcome of `Get`/`GetMaxAge`, or process
termination propagated from `fileExists`. -/
inductive GetResult where
  | fatal
  | res (data : List Nat) (error : Option SErr)
  deriving DecidableEq, Repr

/-- `Get` of the Go code: if `retrieve` succeeds, return its bytes with a nil
error; on any retrieval error fall through to `store`. -/
def Get (c : Cacher) (w : World) (key : String) : GetResult × World :=
  match retrieve c w key with
  | .fatal => (.fatal, w)
  | .ok data _ => (.res data none, w)
  | .err _ =>
    let sw := store c w key
    (.res sw.1.data sw.1.error, sw.2)

/-- `GetMaxAge` of the Go code: a retrieval counts as a hit only when it
succeeds and `time.Since(mtime) < maxAge` (strictly); otherwise fall through
to `store`. -/
def GetMaxAge (c : Cacher) (w : World) (key : String) (maxAge : Int) :
    GetResult × World :=
  match retrieve c w key with
  | .fatal => (.fatal, w)
  | .ok data mtime =>
    if w.now - mtime < maxAge then (.res data none, w)
    else
      let sw := store c w key
      (.res sw.1.data sw.1.error, sw.2)
  | .err _ =>
    let sw := store c w key
    (.res sw.1.data sw.1.error, sw.2)

/-!
## The per-key lock registry (`getMx`)

`getMx` uses double-checked locking over a map guarded by `locksLock`
(a `sync.RWMutex`).  Every access to the map happens while holding that
lock, so the map operations of distinct threads are serialized; a thread's
`getMx` decomposes into two atomic steps with an arbitrary interleaving
point between them:

* the optimistic read (lines 46-52): read the map under the shared lock;
  if the key is present, finish with that lock object;
* the critical section (lines 54-64): under the exclusive lock, re-check;
  if the key is present, finish with the existing object, otherwise
  allocate a fresh `sync.RWMutex`, register it, and finish with it.

Lock objects are identified by allocation number (`nextId`); two calls
return "the same object" exactly when they return the same number.
Threads are indexed by `Nat`; each thread's key is fixed by a map
`keys : Nat → String`, and a schedule (a list of thread indices) picks the
interleaving.
-/

/-- Phase of one thread executing `getMx`: before the optimistic read,
between the read and the critical section (the read missed), or finished
holding lock object `id`. -/
inductive TPhase where
  | start
  | slow
  | finished (id : Nat)
  deriving DecidableEq, Repr

/-- The lock registry together with the threads executing `getMx`:
the map `locks` (keyed by the cache key, valued by lock-object id), the
next allocation number, and each thread's phase. -/
structure RegSys where
  locks : String → Option Nat
  nextId : Nat
  phase : Nat → TPhase

/-- One atomic step of thread `i` (with key `keys i`): the optimistic read
if it is at `start`, the double-checked critical section if it is at
`slow`; a finished thread does nothing. -/
def getMxStep (keys : Nat → String) (s : RegSys) (i : Nat) : RegSys :=
  match s.phase i with
  | .finished _ => s
  | .start =>
    match s.locks (keys i) with
    | some id => { s with phase := fun j => if j = i then .finished id else s.phase j }
    | none => { s with phase := fun j => if j = i then .slow else s.phase j }
  | .slow =>
    match s.locks (keys i) with
    | some id => { s with phase := fun j => if j = i then .finished id else s.phase j }
    | none =>
      { locks := fun k => if k = keys i then some s.nextId else s.locks k,
        nextId := s.nextId + 1,
        phase := fun j => if j = i then .finished s.nextId else s.phase j }

/-- Run a schedule: execute the listed threads' steps in order. -/
def getMxRun (keys : Nat → String) (s : RegSys) (sched : List Nat) : RegSys :=
  match sched with
  | [] => s
  | i :: rest => getMxRun keys (getMxStep keys s i) rest

/-- The registry invariant: every finished thread holds exactly the lock
object currently registered for its key. -/
def RegInv (keys : Nat → String) (s : RegSys) : Prop :=
  ∀ i id, s.phase i = .finished id → s.locks (keys i) = some id

/-!
## Concrete test fixtures

A small cacher and world used to instantiate the theorems below on
concrete inputs: the source returns `[7, 8]` for every key except `"bad"`,
where it fails with `"boom"`; the world holds one regular file at
`"root/k"` and no environmental failures.
-/

/-- A concrete cacher: root directory `"root"`, source failing on `"bad"`. -/
def cW : Cacher :=
  { lookup := fun k => if k = "bad" then Except.error "boom" else Except.ok [7, 8],
    path := "root" }

/-- A concrete regular file with payload `[1, 2]`, modified at time 3. -/
def fW : File := { isDir := false, data := [1, 2], mtime := 3 }

/-- A concrete world: one file at `"root/k"`, no failures, time 10. -/
def wW : World :=
  { files := fun p => if p = "root/k" then some fW else none,
    statErr := fun _ => false, readErr := fun _ => false,
    writeErr := fun _ => false, now := 10, calls := 0 }

/-- `wW` with every write failing. -/
def wErr : World := { wW with writeErr := fun _ => true }

/-- `wW` with its file at `"root/bad"` instead (the failing key's path). -/
def wBad : World :=
  { wW with files := fun p => if p = "root/bad" then some fW else none }

/-!
## Helper lemmas
-/

/-- Normal form of `retrieve`: fatal on an unexpected stat error, `notStored`
when the path is absent or a directory, `readFail` when the read fails, and
the payload with its mtime otherwise. -/
theorem retrieve_spec (c : Cacher) (w : World) (key : String) :
    retrieve c w key =
      if w.statErr (filePath c key) then .fatal
      else
        match w.files (filePath c key) with
        | none => .err .notStored
        | some f =>
          if f.isDir then .err .notStored
          else if w.readErr (filePath c key) then .err .readFail
          else .ok f.data f.mtime := by
  unfold retrieve statOf fileExists
  by_cases hst : w.statErr (filePath c key) <;> simp [hst]
  rcases hf : w.files (filePath c key) with _ | f
  · simp
  · cases hdir : f.isDir
    · by_cases hre : w.readErr (filePath c key) <;> simp [hdir, hre, hf]
    · simp [hdir]

/-- `store` always bumps the source-call counter by exactly one. -/
theorem store_calls (c : Cacher) (w : World) (key : String) :
    ((store c w key).2).calls = w.calls + 1 := by
  unfold store
  rcases c.lookup key with e | ans
  · rfl
  · by_cases hw : w.writeErr (filePath c key) <;> simp [hw]

/-- `store` leaves the stat-error flags unchanged. -/
theorem store_statErr (c : Cacher) (w : World) (key : String) :
    ((store c w key).2).statErr = w.statErr := by
  unfold store
  rcases c.lookup key with e | ans
  · rfl
  · by_cases hw : w.writeErr (filePath c key) <;> simp [hw]

/-- `store` leaves the read-error flags unchanged. -/
theorem store_readErr (c : Cacher) (w : World) (key : String) :
    ((store c w key).2).readErr = w.readErr := by
  unfold store
  rcases c.lookup key with e | ans
  · rfl
  · by_cases hw : w.writeErr (filePath c key) <;> simp [hw]

/-- `filePath` is injective in the key (string append cancels on the left). -/
theorem filePath_inj (c : Cacher) {k1 k2 : String}
    (h : filePath c k1 = filePath c k2) : k1 = k2 := by
  unfold filePath at h
  have h2 : (c.path ++ "/" ++ k1).data = (c.path ++ "/" ++ k2).data := by rw [h]
  simp only [String.data_append, List.append_assoc] at h2
  have h3 := List.append_cancel_left h2
  have h4 := List.append_cancel_left h3
  exact String.ext h4

/-- One `getMx` step never removes or replaces a registered lock object. -/
theorem getMxStep_locks_mono (keys : Nat → String) (s : RegSys) (i : Nat)
    (k : String) (v : Nat) (h : s.locks k = some v) :
    (getMxStep keys s i).locks k = some v := by
  unfold getMxStep
  rcases hp : s.phase i with _ | _ | fid
  · rcases hl : s.locks (keys i) with _ | lid <;> simp [h]
  · rcases hl : s.locks (keys i) with _ | lid
    · simp only []
      show (if k = keys i then some s.nextId else s.locks k) = some v
      by_cases hk : k = keys i
      · rw [hk] at h; rw [hl] at h; cases h
      · simp [hk, h]
    · simp [h]
  · simp [h]

/-- One `getMx` step preserves the registry invariant. -/
theorem getMxStep_inv (keys : Nat → String) (s : RegSys) (i : Nat)
    (h : RegInv keys s) : RegInv keys (getMxStep keys s i) := by
  intro j id hj
  by_cases hji : j = i
  · subst hji
    rcases hp : s.phase j with _ | _ | fid
    · rcases hl : s.locks (keys j) with _ | lid
      · simp [getMxStep, hp, hl] at hj
      · simp [getMxStep, hp, hl] at hj ⊢
        omega
    · rcases hl : s.locks (keys j) with _ | lid
      · simp [getMxStep, hp, hl] at hj ⊢
        rw [hj]
      · simp [getMxStep, hp, hl] at hj ⊢
        omega
    · simp [getMxStep, hp] at hj ⊢
      rw [← hj]; exact h j fid hp
  · rcases hp : s.phase i with _ | _ | fid
    · rcases hl : s.locks (keys i) with _ | lid <;>
        · simp [getMxStep, hp, hl, hji] at hj ⊢
          exact h j id hj
    · rcases hl : s.locks (keys i) with _ | lid
      · simp [getMxStep, hp, hl, hji] at hj ⊢
        have hjs := h j id hj
        by_cases hk : keys j = keys i
        · rw [hk, hl] at hjs; cases hjs
        · simp [hk]; exact hjs
      · simp [getMxStep, hp, hl, hji] at hj ⊢
        exact h j id hj
    · simp [getMxStep, hp] at hj ⊢
      exact h j id hj

/-- Running any schedule never removes or replaces a registered lock. -/
theorem getMxRun_locks_mono (keys : Nat → String) (s : RegSys)
    (sched : List Nat) (k : String) (v : Nat) (h : s.locks k = some v) :
    (getMxRun keys s sched).locks k = some v := by
  induction sched generalizing s with
  | nil => exact h
  | cons i rest ih => exact ih _ (getMxStep_locks_mono keys s i k v h)

/-- Running any schedule preserves the registry invariant. -/
theorem getMxRun_inv (keys : Nat → String) (s : RegSys) (sched : List Nat)
    (h : RegInv keys s) : RegInv keys (getMxRun keys s sched) := by
  induction sched generalizing s with
  | nil => exact h
  | cons i rest ih => exact ih _ (getMxStep_inv keys s i h)

/-!
## Claim theorems
-/

/-- C1: if a store for `key` completed successfully (so the payload is on
disk), a subsequent `Get` with no intervening store returns exactly the
stored bytes with a nil error and leaves the world unchanged — in
particular `calls` is unchanged, i.e. the source function is not invoked
again. -/
theorem store_get_roundtrip (c : Cacher) (w : World) (key : String)
    (hok : (store c w key).1.error = none)
    (hre : w.readErr (filePath c key) = false)
    (hst : w.statErr (filePath c key) = false) :
    Get c ((store c w key).2) key =
      (.res (store c w key).1.data none, (store c w key).2) := by
  rcases hl : c.lookup key with e | ans
  · simp [store, hl] at hok
  · by_cases hw : w.writeErr (filePath c key)
    · simp [store, hl, hw] at hok
    · simp [Get, retrieve_spec, store, hl, hw, hre, hst]

/-- C1 witness: concrete store-then-get round trip through `cW`/`wW`. -/
theorem store_get_roundtrip_witness :
    (store cW wW "k").1.error = none ∧
    wW.readErr (filePath cW "k") = false ∧
    wW.statErr (filePath cW "k") = false ∧
    Get cW ((store cW wW "k").2) "k" =
      (.res (store cW wW "k").1.data none, (store cW wW "k").2) :=
  ⟨by decide, rfl, rfl, store_get_roundtrip cW wW "k" (by decide) rfl rfl⟩

/-- C3: when the source fails, `store` returns the empty payload with that
failure and leaves every stored file exactly as it was (absent stays
absent, a cached entry is unchanged). -/
theorem store_source_failure (c : Cacher) (w : World) (key : String)
    (e : String) (h : c.lookup key = .error e) :
    (store c w key).1 = ⟨[], some (.sourceFail e)⟩ ∧
    ∀ p, ((store c w key).2).files p = w.files p :=
  ⟨by simp [store, h], fun p => by simp [store, h]⟩

/-- C3 witness: source failure on key `"bad"` leaves the world's files
untouched. -/
theorem store_source_failure_witness :
    cW.lookup "bad" = .error "boom" ∧
    ((store cW wW "bad").1 = ⟨[], some (.sourceFail "boom")⟩ ∧
      ∀ p, ((store cW wW "bad").2).files p = wW.files p) :=
  ⟨rfl, store_source_failure cW wW "bad" "boom" rfl⟩

/-- C4: when the source succeeds with `v` but the write fails, `store`
returns the fresh bytes `v` together with the write error — a meaningful
payload and a non-nil error at once. -/
theorem store_write_failure (c : Cacher) (w : World) (key : String)
    (v : List Nat) (hv : c.lookup key = .ok v)
    (hw : w.writeErr (filePath c key) = true) :
    (store c w key).1 = ⟨v, some .writeFail⟩ := by
  simp [store, hv, hw]

/-- C4 witness: a failing write in `wErr` still hands back `[7, 8]`. -/
theorem store_write_failure_witness :
    cW.lookup "k" = .ok [7, 8] ∧
    wErr.writeErr (filePath cW "k") = true ∧
    (store cW wErr "k").1 = ⟨[7, 8], some .writeFail⟩ :=
  ⟨rfl, rfl, store_write_failure cW wErr "k" [7, 8] rfl rfl⟩

/-- C6: any retrieval error — `notStored` (absent or directory) or a read
failure — makes `Get` and `GetMaxAge` fall through to the compute-and-store
path; the outcome is that of `store` alone and does not depend on which
retrieval error occurred, so a read I/O error is never surfaced as a
distinguishable retrieval error. -/
theorem get_falls_through_on_retrieve_error (c : Cacher) (w : World)
    (key : String) (e : RetrieveErr) (h : retrieve c w key = .err e) :
    Get c w key =
      (.res (store c w key).1.data (store c w key).1.error, (store c w key).2) ∧
    ∀ d, GetMaxAge c w key d =
      (.res (store c w key).1.data (store c w key).1.error, (store c w key).2) :=
  ⟨by simp [Get, h], fun d => by simp [GetMaxAge, h]⟩

/-- C6 witness: the absent key `"m"` falls through to `store`. -/
theorem get_falls_through_on_retrieve_error_witness :
    retrieve cW wW "m" = .err .notStored ∧
    (Get cW wW "m" =
      (.res (store cW wW "m").1.data (store cW wW "m").1.error,
        (store cW wW "m").2) ∧
     ∀ d, GetMaxAge cW wW "m" d =
      (.res (store cW wW "m").1.data (store cW wW "m").1.error,
        (store cW wW "m").2)) :=
  ⟨by decide, get_falls_through_on_retrieve_error cW wW "m" .notStored (by decide)⟩

/-- C7: `fileExists` reports an entry as existing (with its mtime) exactly
when the stat found a regular, non-directory file; a not-found stat yields
`(false, zero time)`; any other stat error is fatal to the process. -/
theorem fileExists_behavior :
    ∀ (st : StatResult) (m : Int),
      (fileExists st = .res true m ↔ st = .found false m) ∧
      fileExists .notFound = .res false 0 ∧
      fileExists .otherErr = .fatal := by
  intro st m
  refine ⟨?_, rfl, rfl⟩
  cases st with
  | notFound => simp [fileExists]
  | found isDir mt => cases isDir <;> simp [fileExists]
  | otherErr => simp [fileExists]

/-- C8: `store` invokes the source unconditionally — the call counter rises
by one on every call, with no re-check of storage after taking the
exclusive lock — and a successful compute with a successful write fully
replaces the key's file with the fresh payload. -/
theorem store_unconditional_replace (c : Cacher) (w : World) (key : String) :
    ((store c w key).2).calls = w.calls + 1 ∧
    ∀ v, c.lookup key = .ok v → w.writeErr (filePath c key) = false →
      (store c w key).1 = ⟨v, none⟩ ∧
      ((store c w key).2).files (filePath c key) = some ⟨false, v, w.now⟩ :=
  ⟨store_calls c w key,
   fun v hv hw => ⟨by simp [store, hv, hw], by simp [store, hv, hw]⟩⟩

/-- C8 witness: storing `"k"` into `wW` (which already holds `[1, 2]` there)
recomputes and fully replaces the file with `[7, 8]`. -/
theorem store_unconditional_replace_witness :
    cW.lookup "k" = .ok [7, 8] ∧
    wW.writeErr (filePath cW "k") = false ∧
    (((store cW wW "k").2).calls = wW.calls + 1 ∧
      ((store cW wW "k").1 = ⟨[7, 8], none⟩ ∧
       ((store cW wW "k").2).files (filePath cW "k") = some ⟨false, [7, 8], wW.now⟩)) :=
  ⟨rfl, rfl,
   (store_unconditional_replace cW wW "k").1,
   (store_unconditional_replace cW wW "k").2 [7, 8] rfl rfl⟩

/-- C9: for distinct plain-component keys, `store k1` touches only the file
at `filePath c k1` — every other path, in particular `k2`'s file, is
unchanged — and a cache hit performs no write at all (`Get` returns the
world unchanged). -/
theorem store_frame (c : Cacher) (w : World) (k1 k2 : String)
    (_h1 : ∀ ch ∈ k1.data, ch ≠ '/') (_h2 : ∀ ch ∈ k2.data, ch ≠ '/')
    (hne : k1 ≠ k2) :
    ((store c w k1).2).files (filePath c k2) = w.files (filePath c k2) ∧
    (∀ p, p ≠ filePath c k1 → ((store c w k1).2).files p = w.files p) ∧
    (∀ key data mtime, retrieve c w key = .ok data mtime →
      Get c w key = (.res data none, w)) := by
  have hpne : filePath c k2 ≠ filePath c k1 := fun h => hne (filePath_inj c h).symm
  refine ⟨?_, ?_, ?_⟩
  · rcases hl : c.lookup k1 with e | ans
    · simp [store, hl]
    · by_cases hw : w.writeErr (filePath c k1) <;> simp [store, hl, hw, hpne]
  · intro p hp
    rcases hl : c.lookup k1 with e | ans
    · simp [store, hl]
    · by_cases hw : w.writeErr (filePath c k1) <;> simp [store, hl, hw, hp]
  · intro key data mtime h
    simp [Get, h]

/-- C9 witness: storing `"a"` leaves `"root/k"` (the file of key `"k"`)
unchanged, and the hit on `"k"` writes nothing. -/
theorem store_frame_witness :
    (∀ ch ∈ "a".data, ch ≠ '/') ∧ (∀ ch ∈ "k".data, ch ≠ '/') ∧ "a" ≠ "k" ∧
    (((store cW wW "a").2).files (filePath cW "k") = wW.files (filePath cW "k") ∧
     (∀ p, p ≠ filePath cW "a" → ((store cW wW "a").2).files p = wW.files p) ∧
     (∀ key data mtime, retrieve cW wW key = .ok data mtime →
       Get cW wW key = (.res data none, wW))) :=
  ⟨by decide, by decide, by decide,
   store_frame cW wW "a" "k" (by decide) (by decide) (by decide)⟩

/-- C10: when the source fails, the caller gets the empty payload alongside
the error — never the previously cached bytes — even when a valid entry
exists in storage, as on the `GetMaxAge` stale-entry path. -/
theorem source_failure_empty_payload (c : Cacher) (w : World) (key : String)
    (e : String) (d : Int) (f : File)
    (he : c.lookup key = .error e)
    (hf : w.files (filePath c key) = some f) (hdir : f.isDir = false)
    (hre : w.readErr (filePath c key) = false)
    (hst : w.statErr (filePath c key) = false)
    (hstale : d ≤ w.now - f.mtime) :
    (store c w key).1.data = [] ∧
    GetMaxAge c w key d =
      (.res [] (some (.sourceFail e)), { w with calls := w.calls + 1 }) := by
  have hr : retrieve c w key = .ok f.data f.mtime := by
    simp [retrieve_spec, hst, hf, hdir, hre]
  have hnlt : ¬ (w.now - f.mtime < d) := not_lt.mpr hstale
  exact ⟨by simp [store, he], by simp [GetMaxAge, hr, hnlt, store, he]⟩

/-- C10 witness: key `"bad"` has a valid but stale entry `[1, 2]` in `wBad`;
the failing source yields the empty payload with `"boom"`, not `[1, 2]`. -/
theorem source_failure_empty_payload_witness :
    cW.lookup "bad" = .error "boom" ∧
    wBad.files (filePath cW "bad") = some fW ∧
    fW.isDir = false ∧
    wBad.readErr (filePath cW "bad") = false ∧
    wBad.statErr (filePath cW "bad") = false ∧
    (1 : Int) ≤ wBad.now - fW.mtime ∧
    ((store cW wBad "bad").1.data = [] ∧
     GetMaxAge cW wBad "bad" 1 =
      (.res [] (some (.sourceFail "boom")), { wBad with calls := wBad.calls + 1 })) :=
  ⟨rfl, by decide, rfl, rfl, rfl, by decide,
   source_failure_empty_payload cW wBad "bad" "boom" 1 fW rfl (by decide)
     rfl rfl rfl (by decide)⟩

/-- C2: `GetMaxAge` accepts the cached entry as a hit — no fatal stat, the
source-call counter unchanged — exactly when a regular, readable,
stat-clean file exists for the key and the elapsed time `now - mtime` is
strictly less than `maxAge`; a hit returns the cached bytes and leaves the
world untouched, while a stale entry is treated as a miss and recomputed
through the source (the counter rises by one). -/
theorem getMaxAge_staleness (c : Cacher) (w : World) (key : String) (d : Int) :
    (((GetMaxAge c w key d).1 ≠ .fatal ∧
        ((GetMaxAge c w key d).2).calls = w.calls) ↔
      ∃ f, w.files (filePath c key) = some f ∧ f.isDir = false ∧
        w.readErr (filePath c key) = false ∧
        w.statErr (filePath c key) = false ∧ w.now - f.mtime < d) ∧
    (∀ f, w.files (filePath c key) = some f → f.isDir = false →
      w.readErr (filePath c key) = false → w.statErr (filePath c key) = false →
      w.now - f.mtime < d → GetMaxAge c w key d = (.res f.data none, w)) ∧
    (∀ f, w.files (filePath c key) = some f → f.isDir = false →
      w.readErr (filePath c key) = false → w.statErr (filePath c key) = false →
      d ≤ w.now - f.mtime →
      ((GetMaxAge c w key d).2).calls = w.calls + 1) := by
  have hcalls := store_calls c w key
  refine ⟨⟨?_, ?_⟩, ?_, ?_⟩
  · rintro ⟨hnf, hc⟩
    by_cases hst : w.statErr (filePath c key) = true
    · have hr : retrieve c w key = .fatal := by simp [retrieve_spec, hst]
      exact absurd (by simp [GetMaxAge, hr]) hnf
    · have hst2 : w.statErr (filePath c key) = false := by simpa using hst
      rcases hf : w.files (filePath c key) with _ | f
      · have hr : retrieve c w key = .err .notStored := by
          simp [retrieve_spec, hst2, hf]
        have : ((GetMaxAge c w key d).2).calls = w.calls + 1 := by
          simp [GetMaxAge, hr, hcalls]
        omega
      · cases hdir : f.isDir
        · by_cases hre : w.readErr (filePath c key) = true
          · have hr : retrieve c w key = .err .readFail := by
              simp [retrieve_spec, hst2, hf, hdir, hre]
            have : ((GetMaxAge c w key d).2).calls = w.calls + 1 := by
              simp [GetMaxAge, hr, hcalls]
            omega
          · have hre2 : w.readErr (filePath c key) = false := by simpa using hre
            have hr : retrieve c w key = .ok f.data f.mtime := by
              simp [retrieve_spec, hst2, hf, hdir, hre2]
            by_cases hlt : w.now - f.mtime < d
            · exact ⟨f, rfl, hdir, hre2, hst2, hlt⟩
            · have : ((GetMaxAge c w key d).2).calls = w.calls + 1 := by
                simp [GetMaxAge, hr, hlt, hcalls]
              omega
        · have hr : retrieve c w key = .err .notStored := by
            simp [retrieve_spec, hst2, hf, hdir]
          have : ((GetMaxAge c w key d).2).calls = w.calls + 1 := by
            simp [GetMaxAge, hr, hcalls]
          omega
  · rintro ⟨f, hf, hdir, hre, hst, hlt⟩
    have hr : retrieve c w key = .ok f.data f.mtime := by
      simp [retrieve_spec, hst, hf, hdir, hre]
    exact ⟨by simp [GetMaxAge, hr, hlt], by simp [GetMaxAge, hr, hlt]⟩
  · intro f hf hdir hre hst hlt
    have hr : retrieve c w key = .ok f.data f.mtime := by
      simp [retrieve_spec, hst, hf, hdir, hre]
    simp [GetMaxAge, hr, hlt]
  · intro f hf hdir hre hst hge
    have hr : retrieve c w key = .ok f.data f.mtime := by
      simp [retrieve_spec, hst, hf, hdir, hre]
    have hnlt : ¬ (w.now - f.mtime < d) := not_lt.mpr hge
    simp [GetMaxAge, hr, hnlt, hcalls]

/-- C2 witness: the entry at `"root/k"` (mtime 3, now 10) is a hit for
`maxAge = 100` and returns the cached `[1, 2]`; for `maxAge = 7` it is
stale and the source is invoked. -/
theorem getMaxAge_staleness_witness :
    wW.files (filePath cW "k") = some fW ∧ fW.isDir = false ∧
    wW.readErr (filePath cW "k") = false ∧ wW.statErr (filePath cW "k") = false ∧
    wW.now - fW.mtime < 100 ∧ (7 : Int) ≤ wW.now - fW.mtime ∧
    GetMaxAge cW wW "k" 100 = (.res fW.data none, wW) ∧
    ((GetMaxAge cW wW "k" 7).2).calls = wW.calls + 1 :=
  ⟨by decide, rfl, rfl, rfl, by decide, by decide,
   (getMaxAge_staleness cW wW "k" 100).2.1 fW (by decide) rfl rfl rfl (by decide),
   (getMaxAge_staleness cW wW "k" 7).2.2 fW (by decide) rfl rfl rfl (by decide)⟩

/-- C5: under any interleaving of any number of threads calling `getMx`
(each thread: optimistic read, then the double-checked critical section),
starting from a state satisfying the registry invariant: the invariant is
preserved, a registered lock object is never removed or replaced, and any
two threads that finish with the same key hold the very same lock object.
-/
theorem getMx_unique_lock (keys : Nat → String) (s0 : RegSys)
    (sched : List Nat) (h0 : RegInv keys s0) :
    RegInv keys (getMxRun keys s0 sched) ∧
    (∀ k v, s0.locks k = some v → (getMxRun keys s0 sched).locks k = some v) ∧
    (∀ i j a b, keys i = keys j →
      (getMxRun keys s0 sched).phase i = .finished a →
      (getMxRun keys s0 sched).phase j = .finished b → a = b) := by
  have hinv := getMxRun_inv keys s0 sched h0
  refine ⟨hinv, fun k v hv => getMxRun_locks_mono keys s0 sched k v hv, ?_⟩
  intro i j a b hk ha hb
  have ha2 := hinv i a ha
  have hb2 := hinv j b hb
  rw [hk] at ha2
  rw [ha2] at hb2
  exact Option.some.inj hb2

/-- C5 witness: two threads racing on key `"k"` from the empty registry,
interleaved read-read-insert-adopt; the invariant holds before and after.
-/
theorem getMx_unique_lock_witness :
    RegInv (fun _ => "k") ⟨fun _ => none, 0, fun _ => TPhase.start⟩ ∧
    (RegInv (fun _ => "k")
        (getMxRun (fun _ => "k") ⟨fun _ => none, 0, fun _ => TPhase.start⟩
          [0, 1, 0, 1]) ∧
      (∀ k v, RegSys.locks ⟨fun _ => none, 0, fun _ => TPhase.start⟩ k = some v →
        (getMxRun (fun _ => "k") ⟨fun _ => none, 0, fun _ => TPhase.start⟩
          [0, 1, 0, 1]).locks k = some v) ∧
      (∀ i j a b, (fun _ : Nat => "k") i = (fun _ : Nat => "k") j →
        (getMxRun (fun _ => "k") ⟨fun _ => none, 0, fun _ => TPhase.start⟩
          [0, 1, 0, 1]).phase i = .finished a →
        (getMxRun (fun _ => "k") ⟨fun _ => none, 0, fun _ => TPhase.start⟩
          [0, 1, 0, 1]).phase j = .finished b → a = b)) :=
  have h0 : RegInv (fun _ => "k") ⟨fun _ => none, 0, fun _ => TPhase.start⟩ :=
    fun _ _id h => nomatch h
  ⟨h0, getMx_unique_lock (fun _ => "k") ⟨fun _ => none, 0, fun _ => TPhase.start⟩
    [0, 1, 0, 1] h0⟩

end Bytecacher
